import Mathlib

/-!
Verification of the CSS selector builder and rectangle factory from
`src/05-objects-tasks.js`.

The JavaScript class `ElementsSelector` is embedded as a record of its
fields; instance methods that mutate `this` and return it become
functions `ElementsSelector → Except SelError ElementsSelector`
(methods that may `throw` return `Except`; `combine` and `stringify`
never throw).  A field that is `undefined` until first assigned is an
`Option`; JavaScript truthiness of a string field (`if (this.myElement)`)
is `truthy` below: an empty string and `undefined` are falsy, every
other string truthy.  A JavaScript array is always truthy, so the
optional array fields are tested with `Option.isSome`.
-/

/-- The two error conditions the builder raises (the source uses
`throw new Error(...)` with two distinct messages; the spec names them
`DuplicateFragment` and `OrderViolation`). -/
inductive SelError where
  | DuplicateFragment
  | OrderViolation
deriving Repr, DecidableEq

/-- JavaScript truthiness of a possibly-undefined string field:
`undefined` and the empty string are falsy. -/
def truthy : Option String → Bool
  | some s => !(s == "")
  | none => false

/-- JavaScript template-literal rendering of a possibly-undefined value:
`undefined` prints as the string "undefined". -/
def jsStr : Option String → String
  | some s => s
  | none => "undefined"

/-- JavaScript `Array.prototype.join(sep)`: the elements separated by
`sep`, with no leading or trailing separator. -/
def jsJoin (sep : String) : List String → String
  | [] => ""
  | [x] => x
  | x :: xs => x ++ sep ++ jsJoin sep xs

/-- The state of one `ElementsSelector` instance: `currOrder` is set to 0
by the constructor; every other field is `undefined` until first
assigned. -/
structure ElementsSelector where
  currOrder : Nat
  myElement : Option String
  myId : Option String
  myClass : Option (List String)
  myAttr : Option String
  myPseudoClass : Option (List String)
  myPseudoElement : Option String
  mySelector : Option String
  myCombinator : Option String
  mySelector2 : Option String
deriving Repr, DecidableEq

namespace ElementsSelector

/-- The constructor `new ElementsSelector()`: it sets `currOrder = 0` and
leaves every other field undefined. -/
def init : ElementsSelector :=
  { currOrder := 0, myElement := none, myId := none, myClass := none,
    myAttr := none, myPseudoClass := none, myPseudoElement := none,
    mySelector := none, myCombinator := none, mySelector2 := none }

/-- The six fragment kinds accepted by `checkOrder` (the string keys of
the `parts` object in the source). -/
inductive Part where
  | element
  | id
  | «class»
  | attr
  | pseudoClass
  | pseudoElement
deriving Repr, DecidableEq

/-- The `parts` lookup table inside `checkOrder`. -/
def Part.rank : Part → Nat
  | .element => 0
  | .id => 1
  | .«class» => 2
  | .attr => 3
  | .pseudoClass => 4
  | .pseudoElement => 5

/-- Method `checkOrder(part)`: throws the ordering error when the rank of the
incoming part is strictly below `currOrder`, otherwise sets `currOrder`
to that rank. -/
def checkOrder (s : ElementsSelector) (part : Part) : Except SelError ElementsSelector :=
  if part.rank < s.currOrder then .error .OrderViolation
  else .ok { s with currOrder := part.rank }

/-- Method `element(value)`: order check, then the duplication check on the
truthiness of `myElement`, then assignment. -/
def element (s : ElementsSelector) (value : String) : Except SelError ElementsSelector := do
  let s ← s.checkOrder .element
  if truthy s.myElement then throw .DuplicateFragment
  else pure { s with myElement := some value }

/-- Method `id(value)`: order check, duplication check on `myId`, assignment. -/
def id (s : ElementsSelector) (value : String) : Except SelError ElementsSelector := do
  let s ← s.checkOrder .id
  if truthy s.myId then throw .DuplicateFragment
  else pure { s with myId := some value }

/-- Method `class(value)`: order check, then push onto `myClass` (created as an
empty array on first use; a JavaScript array is always truthy). -/
def «class» (s : ElementsSelector) (value : String) : Except SelError ElementsSelector := do
  let s ← s.checkOrder .«class»
  pure { s with myClass := some (s.myClass.getD [] ++ [value]) }

/-- Method `attr(value)`: order check, then overwrite `myAttr` (no duplication
check). -/
def attr (s : ElementsSelector) (value : String) : Except SelError ElementsSelector := do
  let s ← s.checkOrder .attr
  pure { s with myAttr := some value }

/-- Method `pseudoClass(value)`: order check, then push onto `myPseudoClass`. -/
def pseudoClass (s : ElementsSelector) (value : String) : Except SelError ElementsSelector := do
  let s ← s.checkOrder .pseudoClass
  pure { s with myPseudoClass := some (s.myPseudoClass.getD [] ++ [value]) }

/-- Method `pseudoElement(value)`: order check, duplication check on
`myPseudoElement`, assignment. -/
def pseudoElement (s : ElementsSelector) (value : String) : Except SelError ElementsSelector := do
  let s ← s.checkOrder .pseudoElement
  if truthy s.myPseudoElement then throw .DuplicateFragment
  else pure { s with myPseudoElement := some value }

/-- The instance method `combine(selector1, combinator, selector2)`:
stores its three arguments (the facade passes already-stringified
selectors, so they are strings here) and never throws. -/
def combine (s : ElementsSelector) (selector1 combinator selector2 : String) : ElementsSelector :=
  { s with mySelector := some selector1, myCombinator := some combinator,
           mySelector2 := some selector2 }

/-- Method `stringify()`: if `mySelector && mySelector2` (both truthy strings),
return the joined form; otherwise concatenate the truthy fragments in
fixed order. -/
def stringify (s : ElementsSelector) : String :=
  if truthy s.mySelector && truthy s.mySelector2 then
    jsStr s.mySelector ++ " " ++ jsStr s.myCombinator ++ " " ++ jsStr s.mySelector2
  else
    (if truthy s.myElement then jsStr s.myElement else "")
    ++ (if truthy s.myId then "#" ++ jsStr s.myId else "")
    ++ (if s.myClass.isSome then "." ++ jsJoin "." (s.myClass.getD []) else "")
    ++ (if truthy s.myAttr then "[" ++ jsStr s.myAttr ++ "]" else "")
    ++ (if s.myPseudoClass.isSome then ":" ++ jsJoin ":" (s.myPseudoClass.getD []) else "")
    ++ (if truthy s.myPseudoElement then "::" ++ jsStr s.myPseudoElement else "")

/-- The body of `stringify()` threaded through `this` statement by
statement: the method contains no assignment to any field of `this`, so
the outgoing instance is the incoming one. -/
def stringifyS (s : ElementsSelector) : String × ElementsSelector :=
  (s.stringify, s)

end ElementsSelector

/-- One fragment-setter call together with its argument. -/
inductive Call where
  | element (v : String)
  | id (v : String)
  | «class» (v : String)
  | attr (v : String)
  | pseudoClass (v : String)
  | pseudoElement (v : String)
deriving Repr, DecidableEq

/-- The rank of the fragment kind a call uses. -/
def Call.rank : Call → Nat
  | .element _ => 0
  | .id _ => 1
  | .«class» _ => 2
  | .attr _ => 3
  | .pseudoClass _ => 4
  | .pseudoElement _ => 5

/-- The argument of a call. -/
def Call.val : Call → String
  | .element v => v
  | .id v => v
  | .«class» v => v
  | .attr v => v
  | .pseudoClass v => v
  | .pseudoElement v => v

/-- Dispatch one fragment-setter call on a builder. -/
def applyCall (s : ElementsSelector) : Call → Except SelError ElementsSelector
  | .element v => s.element v
  | .id v => s.id v
  | .«class» v => s.«class» v
  | .attr v => s.attr v
  | .pseudoClass v => s.pseudoClass v
  | .pseudoElement v => s.pseudoElement v

/-- Run a sequence of fragment-setter calls on a builder, stopping at
the first raised error (an error aborts the fluent chain). -/
def applyCalls (s : ElementsSelector) : List Call → Except SelError ElementsSelector
  | [] => .ok s
  | c :: cs => do
      let s' ← applyCall s c
      applyCalls s' cs

namespace cssSelectorBuilder

/-- Facade `element(value)`: `new ElementsSelector().element(value)`. -/
def element (value : String) : Except SelError ElementsSelector :=
  ElementsSelector.init.element value

/-- Facade `id(value)`. -/
def id (value : String) : Except SelError ElementsSelector :=
  ElementsSelector.init.id value

/-- Facade `class(value)`. -/
def «class» (value : String) : Except SelError ElementsSelector :=
  ElementsSelector.init.«class» value

/-- Facade `attr(value)`. -/
def attr (value : String) : Except SelError ElementsSelector :=
  ElementsSelector.init.attr value

/-- Facade `pseudoClass(value)`. -/
def pseudoClass (value : String) : Except SelError ElementsSelector :=
  ElementsSelector.init.pseudoClass value

/-- Facade `pseudoElement(value)`. -/
def pseudoElement (value : String) : Except SelError ElementsSelector :=
  ElementsSelector.init.pseudoElement value

/-- Facade `combine(selector1, combinator, selector2)`: stringifies both
builders first, then stores the two strings and the combinator in a
fresh builder. -/
def combine (selector1 : ElementsSelector) (combinator : String)
    (selector2 : ElementsSelector) : ElementsSelector :=
  ElementsSelector.init.combine selector1.stringify combinator selector2.stringify

end cssSelectorBuilder

/-- Factory `Rectangle(width, height)`: the returned object's two data fields. -/
structure RectObj where
  width : Int
  height : Int
deriving Repr, DecidableEq

/-- The factory function `Rectangle`. -/
def Rectangle (width height : Int) : RectObj :=
  { width := width, height := height }

/-- The returned object's `getArea()` method: `this.width * this.height`. -/
def RectObj.getArea (r : RectObj) : Int :=
  r.width * r.height

deriving instance DecidableEq for Except

/-- The arguments of the `element` calls of a sequence, in order. -/
def elemVals : List Call → List String
  | [] => []
  | .element v :: cs => v :: elemVals cs
  | _ :: cs => elemVals cs

/-- The arguments of the `id` calls of a sequence, in order. -/
def idVals : List Call → List String
  | [] => []
  | .id v :: cs => v :: idVals cs
  | _ :: cs => idVals cs

/-- The arguments of the `class` calls of a sequence, in order. -/
def classVals : List Call → List String
  | [] => []
  | .«class» v :: cs => v :: classVals cs
  | _ :: cs => classVals cs

/-- The arguments of the `attr` calls of a sequence, in order. -/
def attrVals : List Call → List String
  | [] => []
  | .attr v :: cs => v :: attrVals cs
  | _ :: cs => attrVals cs

/-- The arguments of the `pseudoClass` calls of a sequence, in order. -/
def pseudoClassVals : List Call → List String
  | [] => []
  | .pseudoClass v :: cs => v :: pseudoClassVals cs
  | _ :: cs => pseudoClassVals cs

/-- The arguments of the `pseudoElement` calls of a sequence, in order. -/
def pseudoElementVals : List Call → List String
  | [] => []
  | .pseudoElement v :: cs => v :: pseudoElementVals cs
  | _ :: cs => pseudoElementVals cs

/-- The value a last-write-wins optional field holds after the writes in
`l` have been applied on top of `o`. -/
def updOpt (o : Option String) : List String → Option String
  | [] => o
  | v :: l => updOpt (some v) l

/-- The value an append-only list field holds after the pushes in `l`
have been applied on top of `o` (the field is created as an empty array
on first push). -/
def updList (o : Option (List String)) : List String → Option (List String)
  | [] => o
  | v :: l => updList (some (o.getD [] ++ [v])) l

/-- The highest rank among the calls of a sequence (0 when empty): the
"highest rank already used" of the ordering rule. -/
def maxRank (cs : List Call) : Nat :=
  cs.foldl (fun m c => max m c.rank) 0

/-- Each element of `l` preceded by `sep`: the shape `.c1.c2...` /
`:p1:p2...` the specification describes for the class and pseudo-class
fragments. -/
def sepJoined (sep : String) : List String → String
  | [] => ""
  | c :: cs => sep ++ c ++ sepJoined sep cs

/-- A present optional fragment rendered between a prefix and a suffix;
an absent fragment contributes nothing. -/
def optPiece (pre : String) (o : Option String) (post : String) : String :=
  match o with
  | some v => pre ++ v ++ post
  | none => ""

/-- The specification's description of `stringify()` output for a simple
selector: the element text, then `#` + id if set, then the `.`-joined
classes if any, then `[` + attribute + `]` if set, then the `:`-joined
pseudo-classes if any, then `::` + pseudo-element if set; absent
fragments contribute nothing. -/
def specConcat (e i : Option String) (cls : List String) (a : Option String)
    (pcs : List String) (pe : Option String) : String :=
  optPiece "" e "" ++ optPiece "#" i "" ++ sepJoined "." cls
    ++ optPiece "[" a "]" ++ sepJoined ":" pcs ++ optPiece "::" pe ""

/-- A heap of builder instances: the address of a builder is its index.
Each `new ElementsSelector()` appends a fresh instance; an instance
method mutates only the instance it is invoked on. -/
abbrev Heap := List ElementsSelector

/-- Observation `stringify()` invoked on the builder at address `a` (`none` when the
address is not allocated). -/
def stringifyAt (h : Heap) (a : Nat) : Option String :=
  (h.get? a).map ElementsSelector.stringify

/-- A fragment-setter call on the builder at address `a`: in-place
mutation of that instance alone.  `none` when the address is not
allocated; otherwise the raised error or the updated heap. -/
def mutateAt (h : Heap) (a : Nat) (c : Call) : Option (Except SelError Heap) :=
  (h.get? a).map fun b => (applyCall b c).map fun b' => h.set a b'

/-- One invocation of the `cssSelectorBuilder` facade: either one of the
six fragment starters or `combine` applied to two allocated builders. -/
inductive FacadeOp where
  | frag (c : Call)
  | combineOp (a1 : Nat) (combinator : String) (a2 : Nat)
deriving Repr, DecidableEq

/-- Dispatch one fragment starter of the facade. -/
def facadeFrag : Call → Except SelError ElementsSelector
  | .element v => cssSelectorBuilder.element v
  | .id v => cssSelectorBuilder.id v
  | .«class» v => cssSelectorBuilder.«class» v
  | .attr v => cssSelectorBuilder.attr v
  | .pseudoClass v => cssSelectorBuilder.pseudoClass v
  | .pseudoElement v => cssSelectorBuilder.pseudoElement v

/-- One facade invocation on a heap: a fresh builder is constructed
(appended at address `h.length`) and the call's result returned.
`combine` reads its two operands (`none` when either address is not
allocated), stringifies them at call time, and never raises. -/
def applyFacade (h : Heap) : FacadeOp → Option (Except SelError (Heap × Nat))
  | .frag c => some ((facadeFrag c).map fun b => (h ++ [b], h.length))
  | .combineOp a1 cb a2 =>
      match h.get? a1, h.get? a2 with
      | some b1, some b2 =>
          some (.ok (h ++ [cssSelectorBuilder.combine b1 cb b2], h.length))
      | _, _ => none

/-- The builder `cssSelectorBuilder.element("a")` returns. -/
def exA : ElementsSelector := { ElementsSelector.init with myElement := some "a" }

/-- The builder `cssSelectorBuilder.element("b")` returns. -/
def exB : ElementsSelector := { ElementsSelector.init with myElement := some "b" }

/-- The builder `cssSelectorBuilder.element("div").id("main")` returns:
its element fragment is set and its highest used rank is 1. -/
def exElemId : ElementsSelector :=
  { ElementsSelector.init with currOrder := 1, myElement := some "div", myId := some "main" }

/-- The builder `cssSelectorBuilder.id("a")` returns. -/
def exIdA : ElementsSelector :=
  { ElementsSelector.init with currOrder := 1, myId := some "a" }

/-- The builder `cssSelectorBuilder.id("a").class("y")` reaches. -/
def exIdCls : ElementsSelector :=
  { ElementsSelector.init with currOrder := 2, myId := some "a", myClass := some ["y"] }

/-- The builder `cssSelectorBuilder.element("a").class("y")` reaches. -/
def exACls : ElementsSelector :=
  { ElementsSelector.init with currOrder := 2, myElement := some "a", myClass := some ["y"] }

/-- The combined builder the facade returns for
`combine(element("a"), "+", element("b"))`. -/
def exCombined : ElementsSelector :=
  { ElementsSelector.init with
    mySelector := some "a"
    myCombinator := some "+"
    mySelector2 := some "b" }

/-- A rank-ordered demonstration chain using every fragment kind. -/
def demoCalls : List Call :=
  [Call.element "a", Call.id "m", Call.«class» "c1", Call.«class» "c2",
   Call.attr "x", Call.pseudoClass "p", Call.pseudoElement "q"]

/-- The builder state `demoCalls` produces. -/
def demoBuilder : ElementsSelector :=
  { currOrder := 5, myElement := some "a", myId := some "m",
    myClass := some ["c1", "c2"], myAttr := some "x",
    myPseudoClass := some ["p"], myPseudoElement := some "q",
    mySelector := none, myCombinator := none, mySelector2 := none }

example : (applyCalls ElementsSelector.init
    [Call.id "main", Call.«class» "container", Call.«class» "editable"]).map
    ElementsSelector.stringify = .ok "#main.container.editable" := rfl

example : (applyCalls ElementsSelector.init
    [Call.element "a", Call.attr "href", Call.pseudoClass "focus"]).map
    ElementsSelector.stringify = .ok "a[href]:focus" := rfl

example : (applyCalls ElementsSelector.init
    [Call.element "div", Call.id "main", Call.«class» "x", Call.element "span"]) =
    .error .OrderViolation := rfl

example : (applyCalls ElementsSelector.init [Call.id "a", Call.id "b"]) =
    .error .DuplicateFragment := rfl

@[simp] theorem exceptBind_ok {ε α β : Type} (a : α) (f : α → Except ε β) :
    (Except.ok a : Except ε α) >>= f = f a := rfl

@[simp] theorem exceptBind_error {ε α β : Type} (e : ε) (f : α → Except ε β) :
    (Except.error e : Except ε α) >>= f = Except.error e := rfl

theorem ElementsSelector.element_eq (s : ElementsSelector) (v : String) :
    s.element v =
      if 0 < s.currOrder then .error .OrderViolation
      else if truthy s.myElement then .error .DuplicateFragment
      else .ok { s with currOrder := 0, myElement := some v } := by
  by_cases h1 : 0 < s.currOrder <;> by_cases h2 : truthy s.myElement <;>
    simp [ElementsSelector.element, ElementsSelector.checkOrder, Part.rank, h1, h2] <;> rfl

theorem ElementsSelector.id_eq (s : ElementsSelector) (v : String) :
    s.id v =
      if 1 < s.currOrder then .error .OrderViolation
      else if truthy s.myId then .error .DuplicateFragment
      else .ok { s with currOrder := 1, myId := some v } := by
  by_cases h1 : 1 < s.currOrder <;> by_cases h2 : truthy s.myId <;>
    simp [ElementsSelector.id, ElementsSelector.checkOrder, Part.rank, h1, h2] <;> rfl

theorem ElementsSelector.class_eq (s : ElementsSelector) (v : String) :
    s.«class» v =
      if 2 < s.currOrder then .error .OrderViolation
      else .ok { s with currOrder := 2, myClass := some (s.myClass.getD [] ++ [v]) } := by
  by_cases h1 : 2 < s.currOrder <;>
    simp [ElementsSelector.«class», ElementsSelector.checkOrder, Part.rank, h1]

theorem ElementsSelector.attr_eq (s : ElementsSelector) (v : String) :
    s.attr v =
      if 3 < s.currOrder then .error .OrderViolation
      else .ok { s with currOrder := 3, myAttr := some v } := by
  by_cases h1 : 3 < s.currOrder <;>
    simp [ElementsSelector.attr, ElementsSelector.checkOrder, Part.rank, h1]

theorem ElementsSelector.pseudoClass_eq (s : ElementsSelector) (v : String) :
    s.pseudoClass v =
      if 4 < s.currOrder then .error .OrderViolation
      else .ok { s with currOrder := 4,
                        myPseudoClass := some (s.myPseudoClass.getD [] ++ [v]) } := by
  by_cases h1 : 4 < s.currOrder <;>
    simp [ElementsSelector.pseudoClass, ElementsSelector.checkOrder, Part.rank, h1]

theorem ElementsSelector.pseudoElement_eq (s : ElementsSelector) (v : String) :
    s.pseudoElement v =
      if 5 < s.currOrder then .error .OrderViolation
      else if truthy s.myPseudoElement then .error .DuplicateFragment
      else .ok { s with currOrder := 5, myPseudoElement := some v } := by
  by_cases h1 : 5 < s.currOrder <;> by_cases h2 : truthy s.myPseudoElement <;>
    simp [ElementsSelector.pseudoElement, ElementsSelector.checkOrder, Part.rank, h1, h2] <;> rfl

theorem applyCall_orderViolation_iff (s : ElementsSelector) (c : Call) :
    applyCall s c = .error .OrderViolation ↔ c.rank < s.currOrder := by
  cases c <;>
    simp only [applyCall, Call.rank, ElementsSelector.element_eq, ElementsSelector.id_eq,
      ElementsSelector.class_eq, ElementsSelector.attr_eq, ElementsSelector.pseudoClass_eq,
      ElementsSelector.pseudoElement_eq] <;>
    split <;> simp_all <;> (try split <;> simp_all)

theorem applyCall_ok_rank (s : ElementsSelector) (c : Call) (s' : ElementsSelector)
    (h : applyCall s c = .ok s') : ¬ c.rank < s.currOrder ∧ s'.currOrder = c.rank := by
  cases c <;>
    simp only [applyCall, Call.rank, ElementsSelector.element_eq, ElementsSelector.id_eq,
      ElementsSelector.class_eq, ElementsSelector.attr_eq, ElementsSelector.pseudoClass_eq,
      ElementsSelector.pseudoElement_eq] at h <;>
    split at h <;> simp_all <;>
    (try split at h <;> simp_all) <;>
    (try subst h) <;>
    (try simp_all [Call.rank])

theorem applyCalls_currOrder (cs : List Call) :
    ∀ s b : ElementsSelector, applyCalls s cs = .ok b →
      b.currOrder = cs.foldl (fun m c => max m c.rank) s.currOrder := by
  induction cs with
  | nil =>
      intro s b h
      injection h with h
      subst h
      rfl
  | cons c cs ih =>
      intro s b h
      cases hc : applyCall s c with
      | error e =>
          simp only [applyCalls, hc, exceptBind_error] at h
          exact absurd h (by simp)
      | ok s' =>
          simp only [applyCalls, hc, exceptBind_ok] at h
          have hr := applyCall_ok_rank s c s' hc
          rw [ih s' b h, List.foldl_cons]
          congr 1
          omega

/-- C2: on any builder reached by a successful chain of fragment-setter
calls, a further setter of rank strictly below the highest rank already
used raises `OrderViolation`, and a setter of equal or higher rank never
raises `OrderViolation`. -/
theorem rank_order_discipline (cs : List Call) (b : ElementsSelector) (c : Call)
    (hb : applyCalls ElementsSelector.init cs = .ok b) :
    (c.rank < maxRank cs → applyCall b c = .error .OrderViolation) ∧
    (maxRank cs ≤ c.rank → applyCall b c ≠ .error .OrderViolation) := by
  have hco : b.currOrder = maxRank cs := applyCalls_currOrder cs ElementsSelector.init b hb
  constructor
  · intro hlt
    exact (applyCall_orderViolation_iff b c).2 (by omega)
  · intro hge hcon
    have := (applyCall_orderViolation_iff b c).1 hcon
    omega

/-- Witness for C2: after `id("a")` the highest used rank is 1, so
`element("x")` raises `OrderViolation`. -/
theorem rank_order_discipline_witness :
    applyCalls ElementsSelector.init [Call.id "a"] = .ok exIdA ∧
    (Call.element "x").rank < maxRank [Call.id "a"] ∧
    applyCall exIdA (Call.element "x") = .error .OrderViolation :=
  ⟨rfl, by decide,
    (rank_order_discipline [Call.id "a"] exIdA (Call.element "x") rfl).1 (by decide)⟩

theorem applyCalls_fields (cs : List Call) :
    ∀ s b : ElementsSelector, applyCalls s cs = .ok b →
      b.myElement = updOpt s.myElement (elemVals cs) ∧
      b.myId = updOpt s.myId (idVals cs) ∧
      b.myClass = updList s.myClass (classVals cs) ∧
      b.myAttr = updOpt s.myAttr (attrVals cs) ∧
      b.myPseudoClass = updList s.myPseudoClass (pseudoClassVals cs) ∧
      b.myPseudoElement = updOpt s.myPseudoElement (pseudoElementVals cs) ∧
      b.mySelector = s.mySelector ∧
      b.myCombinator = s.myCombinator ∧
      b.mySelector2 = s.mySelector2 := by
  induction cs with
  | nil =>
      intro s b h
      injection h with h
      subst h
      exact ⟨rfl, rfl, rfl, rfl, rfl, rfl, rfl, rfl, rfl⟩
  | cons c cs ih =>
      intro s b h
      cases hc : applyCall s c with
      | error e =>
          simp only [applyCalls, hc, exceptBind_error] at h
          exact absurd h (by simp)
      | ok s' =>
          simp only [applyCalls, hc, exceptBind_ok] at h
          have IH := ih s' b h
          cases c <;>
            simp only [applyCall, ElementsSelector.element_eq, ElementsSelector.id_eq,
              ElementsSelector.class_eq, ElementsSelector.attr_eq,
              ElementsSelector.pseudoClass_eq, ElementsSelector.pseudoElement_eq] at hc <;>
            split at hc <;>
            (try split at hc) <;>
            cases hc <;>
            simp_all [elemVals, idVals, classVals, attrVals, pseudoClassVals,
              pseudoElementVals, updOpt, updList]

theorem updList_some (acc l : List String) :
    updList (some acc) l = some (acc ++ l) := by
  induction l generalizing acc with
  | nil => simp [updList]
  | cons v l ih => simp [updList, ih]

theorem updList_none (l : List String) :
    updList none l = if l = [] then none else some l := by
  cases l with
  | nil => rfl
  | cons v l => simp [updList, updList_some]

theorem updOpt_eq_some (o : Option String) (l : List String) (v : String)
    (h : updOpt o l = some v) : v ∈ l ∨ o = some v := by
  induction l generalizing o with
  | nil => exact .inr h
  | cons x xs ih =>
      simp only [updOpt] at h
      rcases ih (some x) h with hm | he
      · exact .inl (List.mem_cons_of_mem _ hm)
      · injection he with he
        subst he
        exact .inl (List.mem_cons_self _ _)

theorem sep_jsJoin (sep : String) (x : String) (xs : List String) :
    sep ++ jsJoin sep (x :: xs) = sepJoined sep (x :: xs) := by
  induction xs generalizing x with
  | nil => simp [jsJoin, sepJoined]
  | cons y ys ih =>
      rw [show jsJoin sep (x :: y :: ys) = x ++ sep ++ jsJoin sep (y :: ys) from rfl,
        show sepJoined sep (x :: y :: ys) = sep ++ x ++ sepJoined sep (y :: ys) from rfl,
        ← ih y]
      simp [String.append_assoc]

theorem elemVals_ne_empty (cs : List Call) (hvals : ∀ c ∈ cs, Call.val c ≠ "") :
    ∀ v ∈ elemVals cs, v ≠ "" := by
  induction cs with
  | nil => intro v hv; simp [elemVals] at hv
  | cons c cs ih =>
      have htail : ∀ c ∈ cs, Call.val c ≠ "" :=
        fun c hc => hvals c (List.mem_cons_of_mem _ hc)
      have hhead := hvals c (List.mem_cons_self _ _)
      intro v hv
      cases c <;> simp [elemVals, Call.val] at hv hhead <;>
        first
          | exact ih htail v hv
          | (rcases hv with rfl | hv
             · exact hhead
             · exact ih htail v hv)

theorem idVals_ne_empty (cs : List Call) (hvals : ∀ c ∈ cs, Call.val c ≠ "") :
    ∀ v ∈ idVals cs, v ≠ "" := by
  induction cs with
  | nil => intro v hv; simp [idVals] at hv
  | cons c cs ih =>
      have htail : ∀ c ∈ cs, Call.val c ≠ "" :=
        fun c hc => hvals c (List.mem_cons_of_mem _ hc)
      have hhead := hvals c (List.mem_cons_self _ _)
      intro v hv
      cases c <;> simp [idVals, Call.val] at hv hhead <;>
        first
          | exact ih htail v hv
          | (rcases hv with rfl | hv
             · exact hhead
             · exact ih htail v hv)

theorem attrVals_ne_empty (cs : List Call) (hvals : ∀ c ∈ cs, Call.val c ≠ "") :
    ∀ v ∈ attrVals cs, v ≠ "" := by
  induction cs with
  | nil => intro v hv; simp [attrVals] at hv
  | cons c cs ih =>
      have htail : ∀ c ∈ cs, Call.val c ≠ "" :=
        fun c hc => hvals c (List.mem_cons_of_mem _ hc)
      have hhead := hvals c (List.mem_cons_self _ _)
      intro v hv
      cases c <;> simp [attrVals, Call.val] at hv hhead <;>
        first
          | exact ih htail v hv
          | (rcases hv with rfl | hv
             · exact hhead
             · exact ih htail v hv)

theorem pseudoElementVals_ne_empty (cs : List Call) (hvals : ∀ c ∈ cs, Call.val c ≠ "") :
    ∀ v ∈ pseudoElementVals cs, v ≠ "" := by
  induction cs with
  | nil => intro v hv; simp [pseudoElementVals] at hv
  | cons c cs ih =>
      have htail : ∀ c ∈ cs, Call.val c ≠ "" :=
        fun c hc => hvals c (List.mem_cons_of_mem _ hc)
      have hhead := hvals c (List.mem_cons_self _ _)
      intro v hv
      cases c <;> simp [pseudoElementVals, Call.val] at hv hhead <;>
        first
          | exact ih htail v hv
          | (rcases hv with rfl | hv
             · exact hhead
             · exact ih htail v hv)

/-- C1 (amended): for every rank-order-respecting sequence of
fragment-setter calls on one builder that raises no error and passes
only non-empty values, `stringify()` returns the concatenation, in fixed
order, of the element text, `#` + id if set, the `.`-joined classes if
any, `[` + attribute + `]` if set, the `:`-joined pseudo-classes if any,
and `::` + pseudo-element if set, absent fragments contributing nothing.
(The restriction to non-empty values is forced: a fragment set to the
empty string is treated by the code as absent.) -/
theorem stringify_fixed_order (cs : List Call) (b : ElementsSelector)
    (_hord : List.Chain' (fun a c => Call.rank a ≤ Call.rank c) cs)
    (hvals : ∀ c ∈ cs, Call.val c ≠ "")
    (hok : applyCalls ElementsSelector.init cs = .ok b) :
    b.stringify =
      specConcat (updOpt none (elemVals cs)) (updOpt none (idVals cs))
        (classVals cs) (updOpt none (attrVals cs)) (pseudoClassVals cs)
        (updOpt none (pseudoElementVals cs)) := by
  obtain ⟨e1, e2, e3, e4, e5, e6, e7, e8, e9⟩ :=
    applyCalls_fields cs ElementsSelector.init b hok
  simp only [ElementsSelector.init] at e1 e2 e3 e4 e5 e6 e7 e8 e9
  have hvE := elemVals_ne_empty cs hvals
  have hvI := idVals_ne_empty cs hvals
  have hvA := attrVals_ne_empty cs hvals
  have hvP := pseudoElementVals_ne_empty cs hvals
  have hbE : ∀ v, updOpt none (elemVals cs) = some v → (v == "") = false := by
    intro v hv
    rcases updOpt_eq_some none (elemVals cs) v hv with hm | hm
    · simpa using hvE v hm
    · cases hm
  have hbI : ∀ v, updOpt none (idVals cs) = some v → (v == "") = false := by
    intro v hv
    rcases updOpt_eq_some none (idVals cs) v hv with hm | hm
    · simpa using hvI v hm
    · cases hm
  have hbA : ∀ v, updOpt none (attrVals cs) = some v → (v == "") = false := by
    intro v hv
    rcases updOpt_eq_some none (attrVals cs) v hv with hm | hm
    · simpa using hvA v hm
    · cases hm
  have hbP : ∀ v, updOpt none (pseudoElementVals cs) = some v → (v == "") = false := by
    intro v hv
    rcases updOpt_eq_some none (pseudoElementVals cs) v hv with hm | hm
    · simpa using hvP v hm
    · cases hm
  have h1 : (if truthy (updOpt none (elemVals cs)) then jsStr (updOpt none (elemVals cs))
      else "") = optPiece "" (updOpt none (elemVals cs)) "" := by
    rcases hE : updOpt none (elemVals cs) with _ | v
    · simp [truthy, optPiece]
    · simp [truthy, jsStr, optPiece, hbE v hE]
  have h2 : (if truthy (updOpt none (idVals cs)) then "#" ++ jsStr (updOpt none (idVals cs))
      else "") = optPiece "#" (updOpt none (idVals cs)) "" := by
    rcases hI : updOpt none (idVals cs) with _ | v
    · simp [truthy, optPiece]
    · simp [truthy, jsStr, optPiece, hbI v hI]
  have h3 : (if (updList none (classVals cs)).isSome then
      "." ++ jsJoin "." ((updList none (classVals cs)).getD []) else "")
      = sepJoined "." (classVals cs) := by
    rw [updList_none]
    rcases classVals cs with _ | ⟨c, cl⟩
    · simp [sepJoined]
    · simp only [List.cons_ne_self, if_neg (List.cons_ne_nil c cl), Option.isSome_some,
        if_pos, Option.getD_some]
      exact sep_jsJoin "." c cl
  have h4 : (if truthy (updOpt none (attrVals cs)) then
      "[" ++ jsStr (updOpt none (attrVals cs)) ++ "]" else "")
      = optPiece "[" (updOpt none (attrVals cs)) "]" := by
    rcases hA : updOpt none (attrVals cs) with _ | v
    · simp [truthy, optPiece]
    · simp [truthy, jsStr, optPiece, hbA v hA]
  have h5 : (if (updList none (pseudoClassVals cs)).isSome then
      ":" ++ jsJoin ":" ((updList none (pseudoClassVals cs)).getD []) else "")
      = sepJoined ":" (pseudoClassVals cs) := by
    rw [updList_none]
    rcases pseudoClassVals cs with _ | ⟨p, pl⟩
    · simp [sepJoined]
    · simp only [List.cons_ne_self, if_neg (List.cons_ne_nil p pl), Option.isSome_some,
        if_pos, Option.getD_some]
      exact sep_jsJoin ":" p pl
  have h6 : (if truthy (updOpt none (pseudoElementVals cs)) then
      "::" ++ jsStr (updOpt none (pseudoElementVals cs)) else "")
      = optPiece "::" (updOpt none (pseudoElementVals cs)) "" := by
    rcases hP : updOpt none (pseudoElementVals cs) with _ | v
    · simp [truthy, optPiece]
    · simp [truthy, jsStr, optPiece, hbP v hP]
  rw [ElementsSelector.stringify, e1, e2, e3, e4, e5, e6, e7, e8, e9]
  rw [h1, h2, h3, h4, h5, h6]
  simp [truthy, specConcat]

/-- C1 fails as frozen: the rank-respecting sequence `id("")` succeeds,
yet `stringify()` returns `""` while the claimed concatenation—`#` + id
for a set id—is `"#"`: a fragment set to the empty string is treated as
absent. -/
theorem stringify_fixed_order_cex :
    List.Chain' (fun a c => Call.rank a ≤ Call.rank c) [Call.id ""] ∧
    (applyCalls ElementsSelector.init [Call.id ""]).map ElementsSelector.stringify =
      .ok "" ∧
    specConcat (updOpt none (elemVals [Call.id ""])) (updOpt none (idVals [Call.id ""]))
      (classVals [Call.id ""]) (updOpt none (attrVals [Call.id ""]))
      (pseudoClassVals [Call.id ""]) (updOpt none (pseudoElementVals [Call.id ""])) = "#" ∧
    ("" : String) ≠ "#" :=
  ⟨by simp, rfl, rfl, by decide⟩

/-- Witness for C1: the chain
`element("a").id("m").class("c1").class("c2").attr("x").pseudoClass("p").pseudoElement("q")`
is rank-ordered with non-empty values and stringifies to the claimed
concatenation. -/
theorem stringify_fixed_order_witness :
    applyCalls ElementsSelector.init demoCalls = .ok demoBuilder ∧
    demoBuilder.stringify =
      specConcat (updOpt none (elemVals demoCalls)) (updOpt none (idVals demoCalls))
        (classVals demoCalls) (updOpt none (attrVals demoCalls))
        (pseudoClassVals demoCalls) (updOpt none (pseudoElementVals demoCalls)) :=
  ⟨rfl, stringify_fixed_order demoCalls demoBuilder
    (by simp [demoCalls, List.chain'_cons, Call.rank]) (by decide) rfl⟩

/-- C3 fails as frozen: after `element("")` a second `element` call does
not raise `DuplicateFragment` — it succeeds and overwrites, because the
occupied-check tests the stored value's truthiness and the empty string
is falsy. -/
theorem duplicate_singleton_cex :
    applyCalls ElementsSelector.init [Call.element "", Call.element "div"] =
      .ok { ElementsSelector.init with myElement := some "div" } := rfl

/-- C3 (amended): a second call to a singleton setter (`element`, `id`,
`pseudoElement`) raises `DuplicateFragment` provided the value already
stored is truthy (non-empty) and the setter's rank is not below the
builder's order cursor (otherwise the order check raises first). -/
theorem duplicate_singleton_raises (b : ElementsSelector) (v : String) :
    (truthy b.myElement = true → b.currOrder = 0 →
      b.element v = .error .DuplicateFragment) ∧
    (truthy b.myId = true → b.currOrder ≤ 1 →
      b.id v = .error .DuplicateFragment) ∧
    (truthy b.myPseudoElement = true → b.currOrder ≤ 5 →
      b.pseudoElement v = .error .DuplicateFragment) := by
  refine ⟨fun h hc => ?_, fun h hc => ?_, fun h hc => ?_⟩
  · rw [ElementsSelector.element_eq, if_neg (by omega), if_pos h]
  · rw [ElementsSelector.id_eq, if_neg (by omega), if_pos h]
  · rw [ElementsSelector.pseudoElement_eq, if_neg (by omega), if_pos h]

/-- Witness for C3 (amended): `element("a")` then `element("b")` raises
`DuplicateFragment`. -/
theorem duplicate_singleton_raises_witness :
    truthy exA.myElement = true ∧ exA.currOrder = 0 ∧
    exA.element "b" = .error .DuplicateFragment :=
  ⟨rfl, rfl, (duplicate_singleton_raises exA "b").1 rfl rfl⟩

/-- C8: a singleton setter first called with the empty string leaves a
falsy stored value, so a second call to the same setter does not raise
`DuplicateFragment` and instead overwrites the stored value. -/
theorem empty_singleton_overwrites (v : String) :
    applyCalls ElementsSelector.init [Call.element "", Call.element v] =
      .ok { ElementsSelector.init with myElement := some v } ∧
    applyCalls ElementsSelector.init [Call.id "", Call.id v] =
      .ok { ElementsSelector.init with currOrder := 1, myId := some v } ∧
    applyCalls ElementsSelector.init [Call.pseudoElement "", Call.pseudoElement v] =
      .ok { ElementsSelector.init with currOrder := 5, myPseudoElement := some v } :=
  ⟨rfl, rfl, rfl⟩

/-- C9: the order check runs before the duplicate check in every
singleton setter, so when one call violates both rules the ordering
error is the one raised. -/
theorem order_before_duplicate (b : ElementsSelector) (v : String) :
    (truthy b.myElement = true → 0 < b.currOrder →
      b.element v = .error .OrderViolation) ∧
    (truthy b.myId = true → 1 < b.currOrder →
      b.id v = .error .OrderViolation) ∧
    (truthy b.myPseudoElement = true → 5 < b.currOrder →
      b.pseudoElement v = .error .OrderViolation) := by
  refine ⟨fun _ hc => ?_, fun _ hc => ?_, fun _ hc => ?_⟩
  · rw [ElementsSelector.element_eq, if_pos hc]
  · rw [ElementsSelector.id_eq, if_pos hc]
  · rw [ElementsSelector.pseudoElement_eq, if_pos hc]

/-- Witness for C9: on `element("div").id("main")` the call
`element("span")` violates both rules and raises `OrderViolation`. -/
theorem order_before_duplicate_witness :
    truthy exElemId.myElement = true ∧ 0 < exElemId.currOrder ∧
    exElemId.element "span" = .error .OrderViolation :=
  ⟨rfl, by decide, (order_before_duplicate exElemId "span").1 rfl (by decide)⟩

/-- C4 fails as frozen: `element("")` is an independently valid builder
(no call raised), yet its stringified form is the empty string, which is
falsy, so the combined builder's `stringify()` takes the fragment path
and returns `""` instead of `" + b"`. -/
theorem combine_stringify_cex :
    cssSelectorBuilder.element "" =
      .ok { ElementsSelector.init with myElement := some "" } ∧
    cssSelectorBuilder.element "b" = .ok exB ∧
    (cssSelectorBuilder.combine { ElementsSelector.init with myElement := some "" }
      "+" exB).stringify = "" ∧
    ({ ElementsSelector.init with myElement := some "" } : ElementsSelector).stringify
      ++ " + " ++ exB.stringify = " + b" ∧
    ("" : String) ≠ " + b" :=
  ⟨rfl, rfl, rfl, rfl, by decide⟩

/-- C4 (amended): whenever the two builders stringify to non-empty
strings, the facade's `combine` produces a builder stringifying to the
two sub-selector strings joined by the combinator with one space on each
side.  (The non-emptiness is forced: a sub-selector stringifying to `""`
is falsy and sends the combined builder down the fragment path.) -/
theorem combine_stringify (A B : ElementsSelector) (c : String)
    (hA : A.stringify ≠ "") (hB : B.stringify ≠ "") :
    (cssSelectorBuilder.combine A c B).stringify =
      A.stringify ++ " " ++ c ++ " " ++ B.stringify := by
  have hbA : (A.stringify == "") = false := by simpa using hA
  have hbB : (B.stringify == "") = false := by simpa using hB
  rw [cssSelectorBuilder.combine, ElementsSelector.combine]
  rw [ElementsSelector.stringify]
  simp [truthy, jsStr, hbA, hbB]

/-- Witness for C4: combining `element("a")` and `element("b")` with `+`
stringifies to `"a + b"`. -/
theorem combine_stringify_witness :
    exA.stringify ≠ "" ∧ exB.stringify ≠ "" ∧
    (cssSelectorBuilder.combine exA "+" exB).stringify = "a + b" :=
  ⟨by decide, by decide,
    (combine_stringify exA exB "+" (by decide) (by decide)).trans (by decide)⟩

/-- C7: the rectangle factory stores its two arguments unchanged and its
`getArea()` method returns their product. -/
theorem rectangle_spec (w h : Int) :
    (Rectangle w h).width = w ∧ (Rectangle w h).height = h ∧
    (Rectangle w h).getArea = w * h :=
  ⟨rfl, rfl, rfl⟩

theorem mutateAt_ok (h : Heap) (a : Nat) (c : Call) (h₂ : Heap)
    (hm : mutateAt h a c = some (.ok h₂)) :
    ∃ b b', h.get? a = some b ∧ applyCall b c = .ok b' ∧ h₂ = h.set a b' := by
  unfold mutateAt at hm
  cases hga : h.get? a with
  | none => rw [hga] at hm; cases hm
  | some b =>
      rw [hga] at hm
      simp only [Option.map_some'] at hm
      injection hm with hm
      cases hac : applyCall b c with
      | error e => rw [hac] at hm; cases hm
      | ok b' =>
          rw [hac] at hm
          simp only [Except.map] at hm
          injection hm with hm
          exact ⟨b, b', rfl, hac, hm.symm⟩

theorem mutateAt_preserves (h : Heap) (a : Nat) (c : Call) (h₂ : Heap)
    (hm : mutateAt h a c = some (.ok h₂)) (a' : Nat) (hne : a' ≠ a) :
    h₂.get? a' = h.get? a' := by
  obtain ⟨b, b', _, _, rfl⟩ := mutateAt_ok h a c h₂ hm
  exact List.get?_set_ne b' h hne.symm

/-- C5: every facade invocation allocates its builder at a fresh address,
leaving every existing builder untouched, and a fragment-setter call on
the new builder mutates only that builder: the observable state and the
`stringify()` result of every other builder are unchanged. -/
theorem facade_no_shared_state (h : Heap) (op : FacadeOp) (h₁ : Heap) (a : Nat)
    (halloc : applyFacade h op = some (.ok (h₁, a))) :
    a = h.length ∧
    (∀ a' : Nat, a' < h.length → h₁.get? a' = h.get? a') ∧
    (∀ (c : Call) (h₂ : Heap), mutateAt h₁ a c = some (.ok h₂) →
      ∀ a' : Nat, a' ≠ a → h₂.get? a' = h₁.get? a' ∧
        stringifyAt h₂ a' = stringifyAt h₁ a') := by
  have hshape : ∃ b, h₁ = h ++ [b] ∧ a = h.length := by
    cases op with
    | frag c =>
        simp only [applyFacade] at halloc
        cases hf : facadeFrag c with
        | error e => rw [hf] at halloc; simp [Except.map] at halloc
        | ok b =>
            rw [hf] at halloc
            simp only [Except.map, Option.some.injEq, Except.ok.injEq,
              Prod.mk.injEq] at halloc
            exact ⟨b, halloc.1.symm, halloc.2.symm⟩
    | combineOp a1 cb a2 =>
        simp only [applyFacade] at halloc
        cases hg1 : h.get? a1 with
        | none => rw [hg1] at halloc; cases halloc
        | some b1 =>
            cases hg2 : h.get? a2 with
            | none => rw [hg1, hg2] at halloc; cases halloc
            | some b2 =>
                rw [hg1, hg2] at halloc
                simp only [Option.some.injEq, Except.ok.injEq, Prod.mk.injEq] at halloc
                exact ⟨cssSelectorBuilder.combine b1 cb b2, halloc.1.symm, halloc.2.symm⟩
  obtain ⟨b, rfl, rfl⟩ := hshape
  refine ⟨rfl, fun a' ha' => List.get?_append ha', fun c h₂ hm a' hne => ?_⟩
  have hp := mutateAt_preserves (h ++ [b]) h.length c h₂ hm a' hne
  exact ⟨hp, by unfold stringifyAt; rw [hp]⟩

/-- Witness for C5: starting `id("a")` on a heap holding `element("a")`
allocates address 1 and leaves the builder at address 0, and a
subsequent `class("y")` on the new builder leaves it untouched too. -/
theorem facade_no_shared_state_witness :
    applyFacade [exA] (FacadeOp.frag (Call.id "a")) = some (.ok ([exA, exIdA], 1)) ∧
    [exA, exIdA].get? 0 = [exA].get? 0 ∧
    stringifyAt [exA, exIdCls] 0 = stringifyAt [exA, exIdA] 0 :=
  ⟨rfl,
    (facade_no_shared_state [exA] (FacadeOp.frag (Call.id "a")) [exA, exIdA] 1 rfl).2.1
      0 (by decide),
    ((facade_no_shared_state [exA] (FacadeOp.frag (Call.id "a")) [exA, exIdA] 1 rfl).2.2
      (Call.«class» "y") [exA, exIdCls] rfl 0 (by decide)).2⟩

/-- C10: the facade's `combine` stringifies its two operands at call
time and stores only the resulting strings: mutating either operand
afterwards leaves the combined builder's `stringify()` output unchanged,
namely the snapshot of the two operands' strings around the combinator. -/
theorem combine_snapshot (h : Heap) (a1 a2 : Nat) (cb : String) (h₁ : Heap) (a : Nat)
    (b1 b2 : ElementsSelector)
    (hg1 : h.get? a1 = some b1) (hg2 : h.get? a2 = some b2)
    (hc : applyFacade h (.combineOp a1 cb a2) = some (.ok (h₁, a)))
    (c : Call) (h₂ : Heap)
    (hm : mutateAt h₁ a1 c = some (.ok h₂) ∨ mutateAt h₁ a2 c = some (.ok h₂)) :
    stringifyAt h₂ a = stringifyAt h₁ a ∧
    stringifyAt h₁ a = some ((cssSelectorBuilder.combine b1 cb b2).stringify) := by
  simp only [applyFacade, hg1, hg2, Option.some.injEq, Except.ok.injEq,
    Prod.mk.injEq] at hc
  obtain ⟨he, ha⟩ := hc
  subst he
  subst ha
  have ha1 : a1 < h.length := by
    rcases List.get?_eq_some.1 hg1 with ⟨hlt, _⟩
    exact hlt
  have ha2 : a2 < h.length := by
    rcases List.get?_eq_some.1 hg2 with ⟨hlt, _⟩
    exact hlt
  have hsa : stringifyAt (h ++ [cssSelectorBuilder.combine b1 cb b2]) h.length =
      some ((cssSelectorBuilder.combine b1 cb b2).stringify) := by
    unfold stringifyAt
    rw [List.get?_concat_length]
    rfl
  refine ⟨?_, hsa⟩
  rcases hm with hm | hm
  · have hp := mutateAt_preserves _ a1 c h₂ hm h.length (by omega)
    unfold stringifyAt
    rw [hp]
  · have hp := mutateAt_preserves _ a2 c h₂ hm h.length (by omega)
    unfold stringifyAt
    rw [hp]

/-- Witness for C10: after combining `element("a")` and `element("b")`
with `+`, pushing `class("y")` onto the first operand leaves the
combined builder stringifying to `"a + b"`. -/
theorem combine_snapshot_witness :
    [exA, exB].get? 0 = some exA ∧ [exA, exB].get? 1 = some exB ∧
    applyFacade [exA, exB] (FacadeOp.combineOp 0 "+" 1) =
      some (.ok ([exA, exB, exCombined], 2)) ∧
    mutateAt [exA, exB, exCombined] 0 (Call.«class» "y") =
      some (.ok [exACls, exB, exCombined]) ∧
    stringifyAt [exACls, exB, exCombined] 2 = stringifyAt [exA, exB, exCombined] 2 ∧
    stringifyAt [exA, exB, exCombined] 2 = some "a + b" :=
  ⟨rfl, rfl, rfl, rfl,
    (combine_snapshot [exA, exB] 0 1 "+" [exA, exB, exCombined] 2 exA exB rfl rfl rfl
      (Call.«class» "y") [exACls, exB, exCombined] (Or.inl rfl)).1,
    ((combine_snapshot [exA, exB] 0 1 "+" [exA, exB, exCombined] 2 exA exB rfl rfl rfl
      (Call.«class» "y") [exACls, exB, exCombined] (Or.inl rfl)).2).trans (by decide)⟩

/-- C6: `stringify()` assigns to no field of the builder it is invoked
on (the state-threaded form returns the incoming instance), so repeated
calls with no intervening mutation return the same string; and the
result depends only on the builder's own state, so it is stable under
changes elsewhere in the heap. -/
theorem stringify_pure (b : ElementsSelector) (h h' : Heap) (a : Nat)
    (hag : h.get? a = h'.get? a) :
    b.stringifyS.2 = b ∧
    b.stringifyS.2.stringifyS.1 = b.stringifyS.1 ∧
    stringifyAt h a = stringifyAt h' a :=
  ⟨rfl, rfl, by unfold stringifyAt; rw [hag]⟩

/-- Witness for C6: the builder `element("a")` at address 0 stringifies
identically before and after an unrelated allocation, and the
state-threaded `stringify` returns its instance unchanged. -/
theorem stringify_pure_witness :
    [exA].get? 0 = [exA, exB].get? 0 ∧
    stringifyAt [exA] 0 = stringifyAt [exA, exB] 0 ∧
    exA.stringifyS.2 = exA :=
  ⟨rfl, (stringify_pure exA [exA] [exA, exB] 0 rfl).2.2,
    (stringify_pure exA [exA] [exA, exB] 0 rfl).1⟩
